import Mathlib

/-!
Shallow embedding of the Flask service in src/app.py: three routes
(health check, list users, create user) over a DynamoDB table modelled as a
list of items and an S3 bucket modelled as a list of key/content pairs.
Machine-level details that the claims do not touch (HTTP framing, boto3
wire formats) are abstracted; every handler below mirrors the control flow
of the corresponding Python function line by line.
-/

namespace PyAPI

/-- An uploaded file as Flask exposes it: original filename plus raw bytes
(abstracted as a string). Mirrors the object read from request.files. -/
structure UploadFile where
  filename : String
  content : String
deriving DecidableEq

/-- A DynamoDB item as written by app.py lines 69-74: the attributes id,
name, email are always present there, while avatar_url may be absent in a
pre-existing row (get_users line 31 defends against that with .get). -/
structure Item where
  id : String
  name : String
  email : String
  avatar_url : Option String
deriving DecidableEq

/-- The public user shape returned by GET /users (app.py line 31). -/
structure UserOut where
  id : String
  name : String
  email : String
  avatar_url : String
deriving DecidableEq

/-- An incoming POST /user request. content_type is the raw Content-Type
header string; json is the result request.get_json() would produce
(none when the body is unparseable, otherwise the parsed object as an
association list); form and files are what request.form and request.files
hold, which is empty whenever the body is not url-encoded or multipart. -/
structure Request where
  content_type : String
  json : Option (List (String × String))
  form : List (String × String)
  files : List (String × UploadFile)
deriving DecidableEq

/-- The JSON bodies app.py can respond with. -/
inductive RespBody where
  | created (message : String) (id : String) (avatar_url : String)
  | err (error : String)
  | errDetails (error : String) (details : String)
  | statusOk (status : String)
deriving DecidableEq

/-- An HTTP response: status code and JSON body. -/
structure Response where
  status : Nat
  body : RespBody
deriving DecidableEq

/-- The external stores plus the fresh-identifier supply. uuid.uuid4() is
modelled as an injective generator read off a call counter: each call
yields uuidString of the current counter and advances it. -/
structure St where
  table : List Item
  bucket : List (String × String)
  nextUuid : Nat
deriving DecidableEq

/-- The state before any request: empty table, empty bucket. -/
def initSt : St := ⟨[], [], 0⟩

/-- Model of uuid.uuid4(): the n-th value drawn from the generator. Any
injective, never-empty encoding represents the opaque unique identifiers;
unary keeps injectivity elementary. -/
def uuidString (n : Nat) : String := String.mk (List.replicate (n + 1) 'u')

/-- app.py line 11. -/
def S3_BUCKET : String := "prima-tech-challenge"

/-- Python truthiness of an optional string: None and the empty string are
falsy, as tested by `if not name or not email` (app.py line 62). -/
def truthy : Option String → Bool
  | none => false
  | some s => s != ""

/-- Response text at app.py line 63. -/
def missingMsg : String := "Missing \x27name\x27 or \x27email\x27"

/-- Response text at app.py line 42. -/
def invalidJsonMsg : String := "Invalid JSON"

/-- Response text at app.py line 80. -/
def failedSaveMsg : String := "Failed to save user"

/-- Response text at app.py line 76. -/
def createdMsgText : String := "User created successfully"

/-- Python filename.split(".")[-1] (app.py line 54): the last dot-separated
component of the original filename. The dot is a one-character separator,
so splitting the character list is the same operation. -/
def fileExt (f : String) : String := String.mk ((f.data.splitOn '.').getLastD [])

/-- DynamoDB put_item: replaces the item holding the same primary key id,
otherwise adds the item to the table. -/
def put_item (table : List Item) (it : Item) : List Item :=
  if table.any fun j => j.id == it.id then
    table.map fun j => if j.id == it.id then it else j
  else table ++ [it]

/-- S3 upload_fileobj: stores content under key, overwriting any object
already at that key. -/
def upload_fileobj (bucket : List (String × String)) (key content : String) :
    List (String × String) :=
  if bucket.any fun p => p.1 == key then
    bucket.map fun p => if p.1 == key then (key, content) else p
  else bucket ++ [(key, content)]

/-- app.py line 31: one stored item mapped to the public shape, with a
missing avatar_url attribute defaulting to the empty string. -/
def toUserOut (it : Item) : UserOut :=
  ⟨it.id, it.name, it.email, it.avatar_url.getD ""⟩

/-- GET /health (app.py lines 24-26). -/
def health_check : Response := ⟨200, .statusOk "ok"⟩

/-- GET /users (app.py lines 28-33): scan the whole table and map every
item to the public shape, in scan order. Reads only; no store writes. -/
def get_users (table : List Item) : List UserOut := table.map toUserOut

/-- app.py lines 61-80: the tail of create_user shared by both encodings.
Validates the resolved name and email, then attempts the DynamoDB write;
putRes is the outcome the store gives that write (ok, or an exception
message e rendered as str(e)). -/
def finishCreate (user_id : String) (name email : Option String)
    (avatar_url : String) (putRes : Except String Unit) (st : St) :
    Response × St :=
  if !truthy name || !truthy email then
    (⟨400, .err missingMsg⟩, st)
  else
    match putRes with
    | .ok _ =>
        (⟨201, .created createdMsgText user_id avatar_url⟩,
         ⟨put_item st.table ⟨user_id, name.getD "", email.getD "", some avatar_url⟩,
          st.bucket, st.nextUuid⟩)
    | .error e => (⟨500, .errDetails failedSaveMsg e⟩, st)

/-- POST /user (app.py lines 35-80). A fresh uuid is drawn first (line 37).
Dispatch is on exact equality of the Content-Type header with
application/json (line 39). In the JSON branch, a body that parses to
nothing or to the empty object is falsy in Python, so `if not data`
(line 41) rejects both with Invalid JSON. In the form branch an attached
avatar file is uploaded to S3 before validation runs, under a key built
from a second fresh uuid and the last dot-separated component of the
original filename (lines 52-57). -/
def create_user (req : Request) (putRes : Except String Unit) (st : St) :
    Response × St :=
  let user_id := uuidString st.nextUuid
  let st1 : St := ⟨st.table, st.bucket, st.nextUuid + 1⟩
  if req.content_type == "application/json" then
    match req.json with
    | none => (⟨400, .err invalidJsonMsg⟩, st1)
    | some [] => (⟨400, .err invalidJsonMsg⟩, st1)
    | some data =>
        finishCreate user_id (data.lookup "name") (data.lookup "email") ""
          putRes st1
  else
    let name := req.form.lookup "name"
    let email := req.form.lookup "email"
    match req.files.lookup "avatar" with
    | some file =>
        let file_ext := fileExt file.filename
        let avatar_filename := uuidString st1.nextUuid ++ "." ++ file_ext
        let st2 : St :=
          ⟨st1.table, upload_fileobj st1.bucket avatar_filename file.content,
           st1.nextUuid + 1⟩
        let avatar_url :=
          "http://localhost:4566/" ++ S3_BUCKET ++ "/" ++ avatar_filename
        finishCreate user_id name email avatar_url putRes st2
    | none => finishCreate user_id name email "" putRes st1

/-- The name create_user resolves for the request: from the parsed JSON
object in the JSON branch, from the form fields otherwise. -/
def resolvedName (req : Request) : Option String :=
  if req.content_type == "application/json" then (req.json.getD []).lookup "name"
  else req.form.lookup "name"

/-- The email create_user resolves for the request. -/
def resolvedEmail (req : Request) : Option String :=
  if req.content_type == "application/json" then (req.json.getD []).lookup "email"
  else req.form.lookup "email"

/-- Whether request.get_json() produced a truthy value, that is a
non-empty object. -/
def jsonBodyTruthy (req : Request) : Bool :=
  match req.json with
  | some (_ :: _) => true
  | _ => false

/-- A create call that the spec deems successful: the body reaches field
resolution, both resolved fields are truthy, and the store accepts the
write. -/
def validCall (c : Request × Except String Unit) : Bool :=
  (if c.1.content_type == "application/json" then jsonBodyTruthy c.1 else true)
    && truthy (resolvedName c.1) && truthy (resolvedEmail c.1)
    && (match c.2 with | .ok _ => true | .error _ => false)

/-- A sequence of POST /user calls threaded through the state, each paired
with the outcome the store gives its put_item call. -/
def runCreates : List (Request × Except String Unit) → St → List Response × St
  | [], st => ([], st)
  | c :: cs, st =>
      let p := create_user c.1 c.2 st
      let q := runCreates cs p.2
      (p.1 :: q.1, q.2)

/-! Helper lemmas about the embedded operations. -/

theorem truthy_iff (o : Option String) :
    truthy o = true ↔ ∃ s, o = some s ∧ s ≠ "" := by
  cases o with
  | none => simp [truthy]
  | some s => simp [truthy, bne_iff_ne]

theorem truthy_false_iff (o : Option String) :
    truthy o = false ↔ o = none ∨ o = some "" := by
  cases o with
  | none => simp [truthy]
  | some s => simp [truthy]

theorem uuidString_ne_empty (n : Nat) : uuidString n ≠ "" := by
  intro h
  have : (uuidString n).length = 0 := by rw [h]; rfl
  simp [uuidString, String.length] at this

theorem uuidString_inj {m n : Nat} (h : uuidString m = uuidString n) : m = n := by
  have hl : (uuidString m).length = (uuidString n).length := by rw [h]
  simpa [uuidString, String.length] using hl

theorem mem_put_item {t : List Item} {it x : Item} (h : x ∈ put_item t it) :
    x ∈ t ∨ x = it := by
  unfold put_item at h
  by_cases hc : t.any fun j => j.id == it.id
  · rw [if_pos hc] at h
    rcases List.mem_map.mp h with ⟨j, hj, hjx⟩
    by_cases hid : j.id == it.id
    · right; rw [if_pos hid] at hjx; exact hjx.symm
    · left; rw [if_neg hid] at hjx; exact hjx ▸ hj
  · rw [if_neg hc] at h
    rcases List.mem_append.mp h with h | h
    · exact Or.inl h
    · exact Or.inr (List.mem_singleton.mp h)

theorem self_mem_put_item (t : List Item) (it : Item) : it ∈ put_item t it := by
  unfold put_item
  by_cases hc : t.any fun j => j.id == it.id
  · rw [if_pos hc]
    rcases List.any_eq_true.mp hc with ⟨j, hj, hjc⟩
    exact List.mem_map.mpr ⟨j, hj, by rw [if_pos hjc]⟩
  · rw [if_neg hc]
    exact List.mem_append.mpr (Or.inr (List.mem_singleton.mpr rfl))

theorem put_item_fresh {t : List Item} {it : Item}
    (h : ∀ j ∈ t, j.id ≠ it.id) : put_item t it = t ++ [it] := by
  unfold put_item
  rw [if_neg]
  simp only [List.any_eq_true, beq_iff_eq, not_exists]
  intro j hj
  exact h j hj.1 hj.2

theorem finishCreate_missing (user_id : String) (name email : Option String)
    (avatar_url : String) (putRes : Except String Unit) (st : St)
    (h : truthy name = false ∨ truthy email = false) :
    finishCreate user_id name email avatar_url putRes st
      = (⟨400, .err missingMsg⟩, st) := by
  unfold finishCreate
  rcases h with h | h <;> simp [h]

theorem finishCreate_ok (user_id : String) (name email : Option String)
    (avatar_url : String) (st : St)
    (hn : truthy name = true) (he : truthy email = true) :
    finishCreate user_id name email avatar_url (.ok ()) st
      = (⟨201, .created createdMsgText user_id avatar_url⟩,
         ⟨put_item st.table ⟨user_id, name.getD "", email.getD "", some avatar_url⟩,
          st.bucket, st.nextUuid⟩) := by
  unfold finishCreate
  simp [hn, he]

theorem finishCreate_fail (user_id : String) (name email : Option String)
    (avatar_url : String) (e : String) (st : St)
    (hn : truthy name = true) (he : truthy email = true) :
    finishCreate user_id name email avatar_url (.error e) st
      = (⟨500, .errDetails failedSaveMsg e⟩, st) := by
  unfold finishCreate
  simp [hn, he]

theorem self_mem_upload (bucket : List (String × String)) (key content : String) :
    (key, content) ∈ upload_fileobj bucket key content := by
  unfold upload_fileobj
  by_cases hc : bucket.any fun p => p.1 == key
  · rw [if_pos hc]
    rcases List.any_eq_true.mp hc with ⟨p, hp, hpc⟩
    exact List.mem_map.mpr ⟨p, hp, by rw [if_pos hpc]⟩
  · rw [if_neg hc]
    exact List.mem_append.mpr (Or.inr (List.mem_singleton.mpr rfl))

theorem truthy_getD {o : Option String} (h : truthy o = true) : o.getD "" ≠ "" := by
  rcases (truthy_iff o).mp h with ⟨s, rfl, hs⟩
  simpa using hs

theorem finishCreate_spec (user_id : String) (name email : Option String)
    (avatar_url : String) (putRes : Except String Unit) (st : St) :
    (∀ m i u,
        (finishCreate user_id name email avatar_url putRes st).1.body
          = RespBody.created m i u → u = avatar_url) ∧
    (∀ it ∈ (finishCreate user_id name email avatar_url putRes st).2.table,
        it ∈ st.table ∨
          (it = ⟨user_id, name.getD "", email.getD "", some avatar_url⟩ ∧
           truthy name = true ∧ truthy email = true)) := by
  unfold finishCreate
  cases hn : truthy name with
  | false =>
      simp only [hn, Bool.not_false, Bool.true_or, if_true]
      exact ⟨fun m i u h => by simp at h, fun it hit => Or.inl hit⟩
  | true =>
      cases he : truthy email with
      | false =>
          simp only [hn, he, Bool.not_false, Bool.not_true, Bool.or_true, if_true]
          exact ⟨fun m i u h => by simp at h, fun it hit => Or.inl hit⟩
      | true =>
          simp only [hn, he, Bool.not_true, Bool.or_self, Bool.false_eq_true,
            if_false]
          cases putRes with
          | ok u =>
              constructor
              · intro m i u h
                simp only [RespBody.created.injEq] at h
                exact h.2.2.symm
              · intro it hit
                rcases mem_put_item hit with h | h
                · exact Or.inl h
                · exact Or.inr ⟨h, trivial, trivial⟩
          | error e =>
              exact ⟨fun m i u h => by simp at h, fun it hit => Or.inl hit⟩

theorem create_user_json_truthy (req : Request) (putRes : Except String Unit)
    (st : St) (h : req.content_type = "application/json")
    {p : String × String} {l : List (String × String)}
    (hj : req.json = some (p :: l)) :
    create_user req putRes st
      = finishCreate (uuidString st.nextUuid) ((p :: l).lookup "name")
          ((p :: l).lookup "email") "" putRes
          ⟨st.table, st.bucket, st.nextUuid + 1⟩ := by
  unfold create_user
  simp [h, hj]

theorem create_user_form_noavatar (req : Request) (putRes : Except String Unit)
    (st : St) (h : ¬ req.content_type = "application/json")
    (hf : req.files.lookup "avatar" = none) :
    create_user req putRes st
      = finishCreate (uuidString st.nextUuid) (req.form.lookup "name")
          (req.form.lookup "email") "" putRes
          ⟨st.table, st.bucket, st.nextUuid + 1⟩ := by
  unfold create_user
  simp [h, hf]

theorem create_user_form_avatar (req : Request) (putRes : Except String Unit)
    (st : St) (h : ¬ req.content_type = "application/json")
    {file : UploadFile} (hf : req.files.lookup "avatar" = some file) :
    create_user req putRes st
      = finishCreate (uuidString st.nextUuid) (req.form.lookup "name")
          (req.form.lookup "email")
          ("http://localhost:4566/" ++ S3_BUCKET ++ "/"
            ++ (uuidString (st.nextUuid + 1) ++ "." ++ fileExt file.filename))
          putRes
          ⟨st.table,
           upload_fileobj st.bucket
             (uuidString (st.nextUuid + 1) ++ "." ++ fileExt file.filename)
             file.content,
           st.nextUuid + 2⟩ := by
  unfold create_user
  simp [h, hf]

theorem resolvedName_json (req : Request) (h : req.content_type = "application/json")
    {d : List (String × String)} (hj : req.json = some d) :
    resolvedName req = d.lookup "name" := by
  simp [resolvedName, h, hj]

theorem resolvedEmail_json (req : Request) (h : req.content_type = "application/json")
    {d : List (String × String)} (hj : req.json = some d) :
    resolvedEmail req = d.lookup "email" := by
  simp [resolvedEmail, h, hj]

theorem resolvedName_form (req : Request) (h : ¬ req.content_type = "application/json") :
    resolvedName req = req.form.lookup "name" := by
  simp [resolvedName, h]

theorem resolvedEmail_form (req : Request) (h : ¬ req.content_type = "application/json") :
    resolvedEmail req = req.form.lookup "email" := by
  simp [resolvedEmail, h]

/-! Claim theorems. -/

/-- Claim C3, counterexample: a POST /user with content type
application/json and body the empty JSON object is answered with status
400 and the Invalid JSON error body, not the missing name or email error
body the claim predicts. The empty object is falsy in Python, so the
guard at app.py line 41 fires before field resolution. -/
theorem claim_C3_counterexample :
    (create_user ⟨"application/json", some [], [], []⟩ (.ok ()) initSt).1
      = ⟨400, RespBody.err invalidJsonMsg⟩ ∧
    ¬ (create_user ⟨"application/json", some [], [], []⟩ (.ok ()) initSt).1
      = ⟨400, RespBody.err missingMsg⟩ := by
  decide

/-- Claim C3 as amended: a POST /user with content type application/json
whose body parses to the empty JSON object is answered with status 400 and
the Invalid JSON error body, with no record written, because the empty
object fails the same truthiness guard that catches an unparseable body. -/
theorem claim_C3_thm (form : List (String × String))
    (files : List (String × UploadFile)) (putRes : Except String Unit)
    (st : St) :
    create_user ⟨"application/json", some [], form, files⟩ putRes st
      = (⟨400, .err invalidJsonMsg⟩, ⟨st.table, st.bucket, st.nextUuid + 1⟩) := by
  unfold create_user
  simp

/-- Claim C10: dispatch between the two create encodings is exact string
equality of the Content-Type header with application/json, so a request
under any other header string is processed through the form path; a JSON
body under such a header contributes no form fields and no files, so the
handler answers 400 with the missing name or email body and writes no
record. -/
theorem claim_C10_thm (ct : String) (js : Option (List (String × String)))
    (putRes : Except String Unit) (st : St)
    (h : ¬ ct = "application/json") :
    create_user ⟨ct, js, [], []⟩ putRes st
      = (⟨400, .err missingMsg⟩, ⟨st.table, st.bucket, st.nextUuid + 1⟩) := by
  rw [create_user_form_noavatar ⟨ct, js, [], []⟩ putRes st h rfl]
  exact finishCreate_missing _ _ _ _ _ _ (Or.inl rfl)

/-- Witness for claim C10 at a concrete request: the header carries a
charset parameter and the JSON body holds valid fields, yet the request is
rejected as missing name or email. -/
theorem claim_C10_witness :
    ¬ "application/json; charset=utf-8" = "application/json" ∧
    create_user
        ⟨"application/json; charset=utf-8",
         some [("name", "Ann"), ("email", "ann@x.com")], [], []⟩
        (.ok ()) initSt
      = (⟨400, .err missingMsg⟩, ⟨[], [], 1⟩) :=
  ⟨by decide,
   claim_C10_thm "application/json; charset=utf-8"
     (some [("name", "Ann"), ("email", "ann@x.com")]) (.ok ()) initSt
     (by decide)⟩

/-- Claim C2: whenever a POST /user in either encoding resolves its name
or email to a missing or empty value, the response is 400 with the missing
name or email body and the user table is unchanged. In the JSON encoding
resolution happens only for a truthy parsed body, which the first
hypothesis records; a falsy body is answered earlier by the Invalid JSON
guard. -/
theorem claim_C2_thm (req : Request) (putRes : Except String Unit) (st : St)
    (hjson : req.content_type = "application/json" → jsonBodyTruthy req = true)
    (hmiss : truthy (resolvedName req) = false
      ∨ truthy (resolvedEmail req) = false) :
    (create_user req putRes st).1 = ⟨400, .err missingMsg⟩ ∧
    (create_user req putRes st).2.table = st.table := by
  by_cases hct : req.content_type = "application/json"
  · have hj := hjson hct
    cases hJ : req.json with
    | none => simp [jsonBodyTruthy, hJ] at hj
    | some d =>
        cases d with
        | nil => simp [jsonBodyTruthy, hJ] at hj
        | cons p l =>
            rw [resolvedName_json req hct hJ, resolvedEmail_json req hct hJ] at hmiss
            rw [create_user_json_truthy req putRes st hct hJ,
              finishCreate_missing _ _ _ _ _ _ hmiss]
            exact ⟨rfl, rfl⟩
  · rw [resolvedName_form req hct, resolvedEmail_form req hct] at hmiss
    cases hf : req.files.lookup "avatar" with
    | none =>
        rw [create_user_form_noavatar req putRes st hct hf,
          finishCreate_missing _ _ _ _ _ _ hmiss]
        exact ⟨rfl, rfl⟩
    | some file =>
        rw [create_user_form_avatar req putRes st hct hf,
          finishCreate_missing _ _ _ _ _ _ hmiss]
        exact ⟨rfl, rfl⟩

/-- Concrete request used to witness claim C2: a multipart form carrying
an email but no name. -/
def reqMissingName : Request :=
  ⟨"multipart/form-data", none, [("email", "ann@x.com")], []⟩

/-- Witness for claim C2 at a concrete request. -/
theorem claim_C2_witness :
    (reqMissingName.content_type = "application/json"
      → jsonBodyTruthy reqMissingName = true) ∧
    (truthy (resolvedName reqMissingName) = false
      ∨ truthy (resolvedEmail reqMissingName) = false) ∧
    (create_user reqMissingName (.ok ()) initSt).1 = ⟨400, .err missingMsg⟩ ∧
    (create_user reqMissingName (.ok ()) initSt).2.table = [] :=
  ⟨by decide, by decide,
   claim_C2_thm reqMissingName (.ok ()) initSt (by decide) (by decide)⟩

/-- Claim C8: the list endpoint answers with one object per record of the
scan result, in scan order, carrying exactly the public fields id, name,
email, avatar_url, where a record without an avatar_url attribute is
mapped to the empty string and a stored avatar_url is passed through. -/
theorem claim_C8_thm (table : List Item) :
    List.Forall₂ (fun (it : Item) (u : UserOut) =>
        u.id = it.id ∧ u.name = it.name ∧ u.email = it.email ∧
        (it.avatar_url = none → u.avatar_url = "") ∧
        (∀ s, it.avatar_url = some s → u.avatar_url = s))
      table (get_users table) := by
  induction table with
  | nil => exact List.Forall₂.nil
  | cons it rest ih =>
      refine List.Forall₂.cons ⟨rfl, rfl, rfl, ?_, ?_⟩ ih
      · intro h; simp [toUserOut, h]
      · intro s h; simp [toUserOut, h]

/-- Claim C6: when the resolved fields are valid but the DynamoDB write
fails, the response is 500 with the failed-save body carrying the
exception text as details, and the user table is unchanged. -/
theorem claim_C6_thm (req : Request) (st : St) (e : String)
    (hjson : req.content_type = "application/json" → jsonBodyTruthy req = true)
    (hn : truthy (resolvedName req) = true)
    (he : truthy (resolvedEmail req) = true) :
    (create_user req (.error e) st).1 = ⟨500, .errDetails failedSaveMsg e⟩ ∧
    (create_user req (.error e) st).2.table = st.table := by
  by_cases hct : req.content_type = "application/json"
  · have hj := hjson hct
    cases hJ : req.json with
    | none => simp [jsonBodyTruthy, hJ] at hj
    | some d =>
        cases d with
        | nil => simp [jsonBodyTruthy, hJ] at hj
        | cons p l =>
            rw [resolvedName_json req hct hJ] at hn
            rw [resolvedEmail_json req hct hJ] at he
            rw [create_user_json_truthy req (.error e) st hct hJ,
              finishCreate_fail _ _ _ _ _ _ hn he]
            exact ⟨rfl, rfl⟩
  · rw [resolvedName_form req hct] at hn
    rw [resolvedEmail_form req hct] at he
    cases hf : req.files.lookup "avatar" with
    | none =>
        rw [create_user_form_noavatar req (.error e) st hct hf,
          finishCreate_fail _ _ _ _ _ _ hn he]
        exact ⟨rfl, rfl⟩
    | some file =>
        rw [create_user_form_avatar req (.error e) st hct hf,
          finishCreate_fail _ _ _ _ _ _ hn he]
        exact ⟨rfl, rfl⟩

/-- Concrete request shared by several witnesses: a JSON-encoded create
with valid name and email. -/
def reqValidJson : Request :=
  ⟨"application/json", some [("name", "Ann"), ("email", "ann@x.com")], [], []⟩

/-- Witness for claim C6 at a concrete request and failing write. -/
theorem claim_C6_witness :
    (reqValidJson.content_type = "application/json"
      → jsonBodyTruthy reqValidJson = true) ∧
    truthy (resolvedName reqValidJson) = true ∧
    truthy (resolvedEmail reqValidJson) = true ∧
    (create_user reqValidJson (.error "boom") initSt).1
      = ⟨500, .errDetails failedSaveMsg "boom"⟩ ∧
    (create_user reqValidJson (.error "boom") initSt).2.table = [] :=
  ⟨by decide, by decide, by decide,
   claim_C6_thm reqValidJson initSt "boom" (by decide) (by decide) (by decide)⟩

/-- Claim C4: avatar_url is the empty string unless a file was uploaded: a
JSON-encoded create, and a form-encoded create without an avatar file,
report the empty string in any successful response and can only add a
record whose avatar_url is the empty string. -/
theorem claim_C4_thm (req : Request) (putRes : Except String Unit) (st : St)
    (h : req.content_type = "application/json"
      ∨ req.files.lookup "avatar" = none) :
    (∀ m i u, (create_user req putRes st).1.body = RespBody.created m i u
        → u = "") ∧
    (∀ it, it ∈ (create_user req putRes st).2.table →
        it ∈ st.table ∨ it.avatar_url = some "") := by
  by_cases hct : req.content_type = "application/json"
  · cases hJ : req.json with
    | none =>
        have hred : create_user req putRes st
            = (⟨400, .err invalidJsonMsg⟩,
               ⟨st.table, st.bucket, st.nextUuid + 1⟩) := by
          unfold create_user; simp [hct, hJ]
        rw [hred]
        exact ⟨fun m i u hh => by simp at hh, fun it hit => Or.inl hit⟩
    | some d =>
        cases d with
        | nil =>
            have hred : create_user req putRes st
                = (⟨400, .err invalidJsonMsg⟩,
                   ⟨st.table, st.bucket, st.nextUuid + 1⟩) := by
              unfold create_user; simp [hct, hJ]
            rw [hred]
            exact ⟨fun m i u hh => by simp at hh, fun it hit => Or.inl hit⟩
        | cons p l =>
            rw [create_user_json_truthy req putRes st hct hJ]
            have hs := finishCreate_spec (uuidString st.nextUuid)
              ((p :: l).lookup "name") ((p :: l).lookup "email") "" putRes
              ⟨st.table, st.bucket, st.nextUuid + 1⟩
            refine ⟨hs.1, fun it hit => ?_⟩
            rcases hs.2 it hit with hh | hh
            · exact Or.inl hh
            · exact Or.inr (by rw [hh.1])
  · rcases h with h | hf
    · exact absurd h hct
    · rw [create_user_form_noavatar req putRes st hct hf]
      have hs := finishCreate_spec (uuidString st.nextUuid)
        (req.form.lookup "name") (req.form.lookup "email") "" putRes
        ⟨st.table, st.bucket, st.nextUuid + 1⟩
      refine ⟨hs.1, fun it hit => ?_⟩
      rcases hs.2 it hit with hh | hh
      · exact Or.inl hh
      · exact Or.inr (by rw [hh.1])

/-- Witness for claim C4: the record the concrete JSON create writes
carries the empty avatar_url. -/
theorem claim_C4_witness :
    (reqValidJson.content_type = "application/json"
      ∨ reqValidJson.files.lookup "avatar" = none) ∧
    ((⟨uuidString 0, "Ann", "ann@x.com", some ""⟩ : Item) ∈ initSt.table
      ∨ (⟨uuidString 0, "Ann", "ann@x.com", some ""⟩ : Item).avatar_url
          = some "") :=
  ⟨Or.inl rfl,
   (claim_C4_thm reqValidJson (.ok ()) initSt (Or.inl rfl)).2
     ⟨uuidString 0, "Ann", "ann@x.com", some ""⟩ (by decide)⟩

/-- Claim C9: in the multipart path the S3 upload happens before field
validation: a form-encoded request carrying an avatar file but a missing
or empty name or email still uploads the file, then is answered 400 with
the missing name or email body; the table is untouched and the uploaded
object stays in the bucket. -/
theorem claim_C9_thm (req : Request) (file : UploadFile)
    (putRes : Except String Unit) (st : St)
    (hct : ¬ req.content_type = "application/json")
    (hf : req.files.lookup "avatar" = some file)
    (hmiss : truthy (req.form.lookup "name") = false
      ∨ truthy (req.form.lookup "email") = false) :
    (create_user req putRes st).1 = ⟨400, .err missingMsg⟩ ∧
    (create_user req putRes st).2.table = st.table ∧
    (create_user req putRes st).2.bucket
      = upload_fileobj st.bucket
          (uuidString (st.nextUuid + 1) ++ "." ++ fileExt file.filename)
          file.content ∧
    (uuidString (st.nextUuid + 1) ++ "." ++ fileExt file.filename,
      file.content) ∈ (create_user req putRes st).2.bucket := by
  rw [create_user_form_avatar req putRes st hct hf,
    finishCreate_missing _ _ _ _ _ _ hmiss]
  exact ⟨rfl, rfl, rfl, self_mem_upload _ _ _⟩

/-- Concrete avatar file used by the C9 witness. -/
def fileC9 : UploadFile := ⟨"pic.png", "BYTES"⟩

/-- Concrete C9 request: an avatar file but no name and no email. -/
def reqC9 : Request := ⟨"multipart/form-data", none, [], [("avatar", fileC9)]⟩

/-- Witness for claim C9 at a concrete request. -/
theorem claim_C9_witness :
    (¬ reqC9.content_type = "application/json") ∧
    reqC9.files.lookup "avatar" = some fileC9 ∧
    (truthy (reqC9.form.lookup "name") = false
      ∨ truthy (reqC9.form.lookup "email") = false) ∧
    (create_user reqC9 (.ok ()) initSt).1 = ⟨400, .err missingMsg⟩ ∧
    (create_user reqC9 (.ok ()) initSt).2.table = [] ∧
    (create_user reqC9 (.ok ()) initSt).2.bucket
      = upload_fileobj [] (uuidString 1 ++ "." ++ fileExt fileC9.filename)
          fileC9.content ∧
    (uuidString 1 ++ "." ++ fileExt fileC9.filename, fileC9.content)
      ∈ (create_user reqC9 (.ok ()) initSt).2.bucket :=
  ⟨by decide, by decide, by decide,
   claim_C9_thm reqC9 fileC9 (.ok ()) initSt (by decide) (by decide)
     (by decide)⟩

/-- Claim C5: a multipart create with an attached avatar file and valid
fields answers 201 and persists a record whose avatar_url contains the
bucket name and ends with a dot followed by the extension of the uploaded
file original filename. -/
theorem claim_C5_thm (req : Request) (file : UploadFile) (st : St)
    (hct : ¬ req.content_type = "application/json")
    (hf : req.files.lookup "avatar" = some file)
    (hn : truthy (req.form.lookup "name") = true)
    (he : truthy (req.form.lookup "email") = true) :
    ∃ url,
      (create_user req (.ok ()) st).1
        = ⟨201, .created createdMsgText (uuidString st.nextUuid) url⟩ ∧
      (∃ a b, url = a ++ S3_BUCKET ++ b) ∧
      (∃ a, url = a ++ ("." ++ fileExt file.filename)) ∧
      ∃ it, it ∈ (create_user req (.ok ()) st).2.table ∧
        it.id = uuidString st.nextUuid ∧ it.avatar_url = some url := by
  rw [create_user_form_avatar req (.ok ()) st hct hf,
    finishCreate_ok _ _ _ _ _ hn he]
  refine ⟨_, rfl, ?_, ?_, ?_⟩
  · exact ⟨"http://localhost:4566/",
      "/" ++ (uuidString (st.nextUuid + 1) ++ "." ++ fileExt file.filename),
      by simp [String.append_assoc]⟩
  · exact ⟨"http://localhost:4566/" ++ S3_BUCKET ++ "/"
        ++ uuidString (st.nextUuid + 1),
      by simp [String.append_assoc]⟩
  · exact ⟨_, self_mem_put_item _ _, rfl, rfl⟩

/-- Concrete avatar file used by the C5 witness. -/
def fileC5 : UploadFile := ⟨"me.png", "IMGBYTES"⟩

/-- Concrete C5 request: avatar file plus valid form fields. -/
def reqC5 : Request :=
  ⟨"multipart/form-data", none, [("name", "Ann"), ("email", "ann@x.com")],
   [("avatar", fileC5)]⟩

/-- Witness for claim C5 at a concrete request. -/
theorem claim_C5_witness :
    (¬ reqC5.content_type = "application/json") ∧
    reqC5.files.lookup "avatar" = some fileC5 ∧
    truthy (reqC5.form.lookup "name") = true ∧
    truthy (reqC5.form.lookup "email") = true ∧
    ∃ url,
      (create_user reqC5 (.ok ()) initSt).1
        = ⟨201, .created createdMsgText (uuidString 0) url⟩ ∧
      (∃ a b, url = a ++ S3_BUCKET ++ b) ∧
      (∃ a, url = a ++ ("." ++ fileExt fileC5.filename)) ∧
      ∃ it, it ∈ (create_user reqC5 (.ok ()) initSt).2.table ∧
        it.id = uuidString 0 ∧ it.avatar_url = some url :=
  ⟨by decide, by decide, by decide, by decide,
   claim_C5_thm reqC5 fileC5 initSt (by decide) (by decide) (by decide)
     (by decide)⟩

/-- Every item of the table has non-empty id, name and email. -/
def goodItems (t : List Item) : Bool :=
  t.all fun it => it.id != "" && it.name != "" && it.email != ""

theorem goodItems_iff (t : List Item) :
    goodItems t = true
      ↔ ∀ it ∈ t, it.id ≠ "" ∧ it.name ≠ "" ∧ it.email ≠ "" := by
  simp [goodItems, and_assoc]

theorem finishCreate_good (uid : String) (nm em : Option String)
    (url : String) (putRes : Except String Unit) (st' : St) (huid : uid ≠ "")
    (h : ∀ it ∈ st'.table, it.id ≠ "" ∧ it.name ≠ "" ∧ it.email ≠ "") :
    ∀ it ∈ (finishCreate uid nm em url putRes st').2.table,
      it.id ≠ "" ∧ it.name ≠ "" ∧ it.email ≠ "" := by
  intro it hit
  rcases (finishCreate_spec uid nm em url putRes st').2 it hit
    with hh | ⟨rfl, hn, he⟩
  · exact h it hh
  · exact ⟨huid, truthy_getD hn, truthy_getD he⟩

/-- Claim C7: every record the system persists has non-empty id, name and
email, while avatar_url may be empty: the invariant is established and
preserved by create_user, and the list and health handlers take the table
as read-only input, writing nothing. -/
theorem claim_C7_thm (req : Request) (putRes : Except String Unit) (st : St)
    (h : goodItems st.table = true) :
    goodItems (create_user req putRes st).2.table = true := by
  rw [goodItems_iff] at h
  rw [goodItems_iff]
  by_cases hct : req.content_type = "application/json"
  · cases hJ : req.json with
    | none =>
        have hred : create_user req putRes st
            = (⟨400, .err invalidJsonMsg⟩,
               ⟨st.table, st.bucket, st.nextUuid + 1⟩) := by
          unfold create_user; simp [hct, hJ]
        rw [hred]
        exact h
    | some d =>
        cases d with
        | nil =>
            have hred : create_user req putRes st
                = (⟨400, .err invalidJsonMsg⟩,
                   ⟨st.table, st.bucket, st.nextUuid + 1⟩) := by
              unfold create_user; simp [hct, hJ]
            rw [hred]
            exact h
        | cons p l =>
            rw [create_user_json_truthy req putRes st hct hJ]
            exact finishCreate_good _ _ _ _ _ _
              (uuidString_ne_empty st.nextUuid) h
  · cases hf : req.files.lookup "avatar" with
    | none =>
        rw [create_user_form_noavatar req putRes st hct hf]
        exact finishCreate_good _ _ _ _ _ _
          (uuidString_ne_empty st.nextUuid) h
    | some file =>
        rw [create_user_form_avatar req putRes st hct hf]
        exact finishCreate_good _ _ _ _ _ _
          (uuidString_ne_empty st.nextUuid) h

/-- Witness for claim C7: the invariant holds for the empty table and is
preserved by a concrete valid create. -/
theorem claim_C7_witness :
    goodItems initSt.table = true ∧
    goodItems (create_user reqValidJson (.ok ()) initSt).2.table = true :=
  ⟨by decide, claim_C7_thm reqValidJson (.ok ()) initSt (by decide)⟩

theorem create_user_valid_step (req : Request) (putRes : Except String Unit)
    (st : St) (h : validCall (req, putRes) = true) :
    ∃ nm em url st2,
      resolvedName req = some nm ∧ resolvedEmail req = some em ∧
      create_user req putRes st
        = (⟨201, .created createdMsgText (uuidString st.nextUuid) url⟩, st2) ∧
      st2.table = put_item st.table ⟨uuidString st.nextUuid, nm, em, some url⟩ ∧
      st.nextUuid < st2.nextUuid := by
  simp only [validCall, Bool.and_eq_true] at h
  obtain ⟨⟨⟨hif, hn⟩, he⟩, hput⟩ := h
  cases putRes with
  | error e => simp at hput
  | ok u =>
      cases u
      by_cases hct : req.content_type = "application/json"
      · have hj : jsonBodyTruthy req = true := by simpa [hct] using hif
        cases hJ : req.json with
        | none => simp [jsonBodyTruthy, hJ] at hj
        | some d =>
            cases d with
            | nil => simp [jsonBodyTruthy, hJ] at hj
            | cons p l =>
                rw [resolvedName_json req hct hJ] at hn
                rw [resolvedEmail_json req hct hJ] at he
                obtain ⟨nm, hnm, hnm0⟩ := (truthy_iff _).mp hn
                obtain ⟨em, hem, hem0⟩ := (truthy_iff _).mp he
                refine ⟨nm, em, "",
                  ⟨put_item st.table
                      ⟨uuidString st.nextUuid, nm, em, some ""⟩,
                    st.bucket, st.nextUuid + 1⟩, ?_, ?_, ?_, rfl,
                  Nat.lt_succ_self _⟩
                · rw [resolvedName_json req hct hJ]; exact hnm
                · rw [resolvedEmail_json req hct hJ]; exact hem
                · rw [create_user_json_truthy req (.ok ()) st hct hJ,
                    finishCreate_ok _ _ _ _ _ hn he]
                  simp [hnm, hem]
      · rw [resolvedName_form req hct] at hn
        rw [resolvedEmail_form req hct] at he
        obtain ⟨nm, hnm, hnm0⟩ := (truthy_iff _).mp hn
        obtain ⟨em, hem, hem0⟩ := (truthy_iff _).mp he
        cases hf : req.files.lookup "avatar" with
        | none =>
            refine ⟨nm, em, "",
              ⟨put_item st.table ⟨uuidString st.nextUuid, nm, em, some ""⟩,
                st.bucket, st.nextUuid + 1⟩, ?_, ?_, ?_, rfl,
              Nat.lt_succ_self _⟩
            · rw [resolvedName_form req hct]; exact hnm
            · rw [resolvedEmail_form req hct]; exact hem
            · rw [create_user_form_noavatar req (.ok ()) st hct hf,
                finishCreate_ok _ _ _ _ _ hn he]
              simp [hnm, hem]
        | some file =>
            refine ⟨nm, em,
              "http://localhost:4566/" ++ S3_BUCKET ++ "/"
                ++ (uuidString (st.nextUuid + 1) ++ "."
                    ++ fileExt file.filename),
              ⟨put_item st.table
                  ⟨uuidString st.nextUuid, nm, em,
                   some ("http://localhost:4566/" ++ S3_BUCKET ++ "/"
                     ++ (uuidString (st.nextUuid + 1) ++ "."
                         ++ fileExt file.filename))⟩,
                upload_fileobj st.bucket
                  (uuidString (st.nextUuid + 1) ++ "."
                    ++ fileExt file.filename) file.content,
                st.nextUuid + 2⟩, ?_, ?_, ?_, rfl,
              by show st.nextUuid < st.nextUuid + 2; omega⟩
            · rw [resolvedName_form req hct]; exact hnm
            · rw [resolvedEmail_form req hct]; exact hem
            · rw [create_user_form_avatar req (.ok ()) st hct hf,
                finishCreate_ok _ _ _ _ _ hn he]
              simp [hnm, hem]

theorem runCreates_valid (cs : List (Request × Except String Unit)) :
    ∀ st : St,
    (∀ c ∈ cs, validCall c = true) →
    (∀ it ∈ st.table, ∃ k, k < st.nextUuid ∧ it.id = uuidString k) →
    st.nextUuid ≤ (runCreates cs st).2.nextUuid ∧
    (∀ it ∈ (runCreates cs st).2.table,
      ∃ k, k < (runCreates cs st).2.nextUuid ∧ it.id = uuidString k) ∧
    ∃ recs,
      (runCreates cs st).2.table = st.table ++ recs ∧
      (∀ it ∈ recs, ∃ k, st.nextUuid ≤ k
        ∧ k < (runCreates cs st).2.nextUuid ∧ it.id = uuidString k) ∧
      (recs.map Item.id).Nodup ∧
      (runCreates cs st).1 = recs.map (fun it =>
        (⟨201, .created createdMsgText it.id (it.avatar_url.getD "")⟩
          : Response)) ∧
      List.Forall₂ (fun c it => resolvedName c.1 = some it.name
        ∧ resolvedEmail c.1 = some it.email) cs recs := by
  induction cs with
  | nil =>
      intro st hv hfresh
      exact ⟨le_refl _, hfresh, [], by simp [runCreates], by simp,
        List.nodup_nil, rfl, List.Forall₂.nil⟩
  | cons c cs ih =>
      intro st hv hfresh
      have hc : validCall c = true := hv c (List.mem_cons_self c cs)
      have hrest : ∀ x ∈ cs, validCall x = true :=
        fun x hx => hv x (List.mem_cons_of_mem c hx)
      obtain ⟨nm, em, url, st2, hrn, hre, hcreate, htab, hlt⟩ :=
        create_user_valid_step c.1 c.2 st hc
      have hstep_fresh : ∀ j ∈ st.table, j.id ≠ uuidString st.nextUuid := by
        intro j hj hjid
        rcases hfresh j hj with ⟨k, hk, hkid⟩
        have hkk := uuidString_inj (hkid ▸ hjid)
        omega
      have htab2 : st2.table
          = st.table ++ [⟨uuidString st.nextUuid, nm, em, some url⟩] := by
        rw [htab, put_item_fresh]
        intro j hj
        exact hstep_fresh j hj
      have hfresh2 : ∀ it ∈ st2.table,
          ∃ k, k < st2.nextUuid ∧ it.id = uuidString k := by
        intro it hit
        rw [htab2] at hit
        rcases List.mem_append.mp hit with hh | hh
        · rcases hfresh it hh with ⟨k, hk, hkid⟩
          exact ⟨k, lt_trans hk hlt, hkid⟩
        · have heq := List.mem_singleton.mp hh
          exact ⟨st.nextUuid, hlt, by rw [heq]⟩
      obtain ⟨hle, hfreshF, recs, htabF, hrange, hnodup, hresps, hfa⟩ :=
        ih st2 hrest hfresh2
      have hrw : runCreates (c :: cs) st
          = (⟨201, .created createdMsgText (uuidString st.nextUuid) url⟩
              :: (runCreates cs st2).1, (runCreates cs st2).2) := by
        simp only [runCreates, hcreate]
      rw [hrw]
      refine ⟨le_trans (le_of_lt hlt) hle, hfreshF,
        ⟨uuidString st.nextUuid, nm, em, some url⟩ :: recs, ?_, ?_, ?_, ?_, ?_⟩
      · rw [htabF, htab2, List.append_assoc]
        rfl
      · intro it hit
        rcases List.mem_cons.mp hit with heq | hh
        · exact ⟨st.nextUuid, le_refl _, lt_of_lt_of_le hlt hle,
            by rw [heq]⟩
        · rcases hrange it hh with ⟨k, hk1, hk2, hkid⟩
          exact ⟨k, le_trans (le_of_lt hlt) hk1, hk2, hkid⟩
      · rw [List.map_cons, List.nodup_cons]
        refine ⟨?_, hnodup⟩
        intro hmem
        rcases List.mem_map.mp hmem with ⟨j, hj, hjid⟩
        rcases hrange j hj with ⟨k, hk1, hk2, hkid⟩
        have hkk := uuidString_inj (hkid ▸ hjid)
        omega
      · rw [List.map_cons, hresps]
        rfl
      · exact List.Forall₂.cons ⟨hrn, hre⟩ hfa

/-- Claim C1: starting from the empty store, the list endpoint returns the
empty array, and after any sequence of N successful creates (valid fields,
accepted writes) it returns exactly N records, in order, whose ids are
pairwise distinct and match the ids of the 201 responses together with
their avatar_url, and whose name and email are the values resolved from
each create request. -/
theorem claim_C1_thm (cs : List (Request × Except String Unit))
    (hv : cs.all validCall = true) :
    get_users initSt.table = [] ∧
    (get_users (runCreates cs initSt).2.table).length = cs.length ∧
    ((get_users (runCreates cs initSt).2.table).map UserOut.id).Nodup ∧
    List.Forall₂ (fun (r : Response) (u : UserOut) =>
        r = ⟨201, .created createdMsgText u.id u.avatar_url⟩)
      (runCreates cs initSt).1 (get_users (runCreates cs initSt).2.table) ∧
    List.Forall₂ (fun (c : Request × Except String Unit) (u : UserOut) =>
        resolvedName c.1 = some u.name ∧ resolvedEmail c.1 = some u.email)
      cs (get_users (runCreates cs initSt).2.table) := by
  have hv' : ∀ c ∈ cs, validCall c = true := by
    simpa [List.all_eq_true] using hv
  obtain ⟨hle, hfr, recs, htab, hrange, hnodup, hresps, hfa⟩ :=
    runCreates_valid cs initSt hv' (by intro it hit; simp [initSt] at hit)
  have htab' : (runCreates cs initSt).2.table = recs := by
    simpa [initSt] using htab
  refine ⟨rfl, ?_, ?_, ?_, ?_⟩
  · rw [htab', get_users, List.length_map, ← List.Forall₂.length_eq hfa]
  · rw [htab']
    have hmm : (get_users recs).map UserOut.id = recs.map Item.id := by
      rw [get_users, List.map_map]
      rfl
    rw [hmm]
    exact hnodup
  · rw [htab', hresps, get_users, List.forall₂_map_left_iff,
      List.forall₂_map_right_iff, List.forall₂_same]
    intro x hx
    rfl
  · rw [htab', get_users, List.forall₂_map_right_iff]
    exact hfa

/-- Witness for claim C1: one JSON create and one multipart create with a
file, both valid and accepted; the list then holds two records with
distinct ids. -/
theorem claim_C1_witness :
    ([(reqValidJson, Except.ok ()), (reqC5, Except.ok ())].all validCall
      = true) ∧
    (get_users (runCreates
        [(reqValidJson, Except.ok ()), (reqC5, Except.ok ())]
        initSt).2.table).length = 2 ∧
    ((get_users (runCreates
        [(reqValidJson, Except.ok ()), (reqC5, Except.ok ())]
        initSt).2.table).map UserOut.id).Nodup :=
  ⟨by decide,
   (claim_C1_thm [(reqValidJson, Except.ok ()), (reqC5, Except.ok ())]
     (by decide)).2.1,
   (claim_C1_thm [(reqValidJson, Except.ok ()), (reqC5, Except.ok ())]
     (by decide)).2.2.1⟩

end PyAPI
